import Mathlib

/-!
Verification of the generic document-grid engine of a Tauri/Vue database
administration front end.  The definitions below are a shallow embedding of
the script section of `src/components/MongoDBDataTable.vue`: JavaScript
values are modelled by an inductive type, the reactive refs of the component
by an explicit state record, and each handler by a pure state-transition
function parameterised over the outcome of its remote call.
-/

namespace MongoGrid

/-- Model of a JavaScript value as it occurs in the grid: `vNum none`
represents `NaN` (the rationals stand in for the finite doubles; the
infinities are not modelled, no claim exercises them). -/
inductive JsValue : Type where
  | vNull : JsValue
  | vUndefined : JsValue
  | vBool : Bool → JsValue
  | vNum : Option ℚ → JsValue
  | vStr : String → JsValue
  | vObj : List (String × JsValue) → JsValue
  | vArr : List JsValue → JsValue

/-- The JavaScript `typeof` operator on the modelled values; note that
`typeof null` is `"object"`, exactly as in JavaScript. -/
def typeofJs : JsValue → String
  | .vNull => "object"
  | .vUndefined => "undefined"
  | .vBool _ => "boolean"
  | .vNum _ => "number"
  | .vStr _ => "string"
  | .vObj _ => "object"
  | .vArr _ => "object"

/-- Drop leading JSON/JS whitespace characters. -/
def skipWs : List Char → List Char
  | [] => []
  | c :: cs => if c = ' ' ∨ c = '\t' ∨ c = '\n' ∨ c = '\r' then skipWs cs else c :: cs

/-- Value of a list of decimal digit characters. -/
def digitsToNat (ds : List Char) : ℕ :=
  ds.foldl (fun n c => n * 10 + (c.toNat - 48)) 0

/-- Split a character list into its leading run of decimal digits and the rest. -/
def takeDigits (cs : List Char) : List Char × List Char :=
  (cs.takeWhile Char.isDigit, cs.dropWhile Char.isDigit)

/-- Model of the JavaScript builtin `parseFloat`: skip leading whitespace,
accept an optional sign, then the longest prefix of the form
`digits [. digits] [e|E [sign] digits]`; any trailing characters are
ignored.  `none` is `NaN`, returned exactly when no digit is found
(`Infinity` literals are not modelled; no value of this repository uses
them). -/
def parseFloat (str : String) : Option ℚ :=
  let cs0 := skipWs str.toList
  let signed : Bool × List Char :=
    match cs0 with
    | '-' :: r => (true, r)
    | '+' :: r => (false, r)
    | _ => (false, cs0)
  let (ip, cs1) := takeDigits signed.2
  let (fp, cs2) :=
    match cs1 with
    | '.' :: r => takeDigits r
    | _ => ([], cs1)
  if ip.isEmpty ∧ fp.isEmpty then none
  else
    let mantissa : ℚ := (digitsToNat ip : ℚ) + (digitsToNat fp : ℚ) / ((10 : ℚ) ^ fp.length)
    let withExp : ℚ :=
      match cs2 with
      | 'e' :: r =>
          match r with
          | '+' :: rr => (fun ed => if ed.isEmpty then mantissa else mantissa * (10 : ℚ) ^ digitsToNat ed) (takeDigits rr).1
          | '-' :: rr => (fun ed => if ed.isEmpty then mantissa else mantissa / (10 : ℚ) ^ digitsToNat ed) (takeDigits rr).1
          | _ => (fun ed => if ed.isEmpty then mantissa else mantissa * (10 : ℚ) ^ digitsToNat ed) (takeDigits r).1
      | 'E' :: r =>
          match r with
          | '+' :: rr => (fun ed => if ed.isEmpty then mantissa else mantissa * (10 : ℚ) ^ digitsToNat ed) (takeDigits rr).1
          | '-' :: rr => (fun ed => if ed.isEmpty then mantissa else mantissa / (10 : ℚ) ^ digitsToNat ed) (takeDigits rr).1
          | _ => (fun ed => if ed.isEmpty then mantissa else mantissa * (10 : ℚ) ^ digitsToNat ed) (takeDigits r).1
      | _ => mantissa
    some (if signed.1 then -withExp else withExp)

/-- Rendering of a model number as JavaScript `String()` renders it:
`NaN` prints as `"NaN"`, integral values print in decimal.  (Non-integral
rationals are given the stock rational rendering; every numeric value the
theorems below evaluate is integral, where this coincides with
JavaScript.) -/
def numToString : Option ℚ → String
  | none => "NaN"
  | some q => if q.den = 1 then toString q.num else toString q


/-- Escape of one character inside a JSON string literal (quote and
backslash; control-character escapes are not modelled, no grid value
contains them). -/
def escapeChar (c : Char) : String :=
  if c = '"' then "\\\"" else if c = '\\' then "\\\\" else String.singleton c

/-- A JSON string literal for `s`, as `JSON.stringify` quotes it. -/
def quoteJson (s : String) : String :=
  "\"" ++ String.join (s.toList.map escapeChar) ++ "\""

mutual

/-- Model of `JSON.stringify(value)` (compact form, no indent), as used by
`formatValue` for composite values: `NaN` serialises as `null`,
`undefined`-valued object fields are omitted.  The grid only ever reaches
this function with object, array and null values. -/
def jsonStringify : JsValue → String
  | .vNull => "null"
  | .vUndefined => "null"
  | .vBool b => cond b "true" "false"
  | .vNum none => "null"
  | .vNum (some q) => numToString (some q)
  | .vStr s => quoteJson s
  | .vArr xs => "[" ++ String.intercalate "," (jsonStringifyItems xs) ++ "]"
  | .vObj fs => "\x7b" ++ String.intercalate "," (jsonStringifyFieldParts fs) ++ "\x7d"

/-- Array elements of `JSON.stringify`: `undefined` renders as `null`. -/
def jsonStringifyItems : List JsValue → List String
  | [] => []
  | x :: xs =>
      (match x with
       | .vUndefined => "null"
       | v => jsonStringify v) :: jsonStringifyItems xs

/-- Object fields of `JSON.stringify`: `undefined`-valued fields are
omitted. -/
def jsonStringifyFieldParts : List (String × JsValue) → List String
  | [] => []
  | (k, v) :: fs =>
      match v with
      | .vUndefined => jsonStringifyFieldParts fs
      | v => (quoteJson k ++ ":" ++ jsonStringify v) :: jsonStringifyFieldParts fs

end

/-- A run of `n` spaces, for the indented `JSON.stringify` form. -/
def spacesN (n : ℕ) : String :=
  String.mk (List.replicate n ' ')

mutual

/-- Model of `JSON.stringify(value, null, 2)` at nesting indentation `ind`,
used by `handleCellClick` to seed the edit text: scalars as in the compact
form, non-empty composites spread over indented lines. -/
def jsonStringifyInd : ℕ → JsValue → String
  | _, .vNull => "null"
  | _, .vUndefined => "null"
  | _, .vBool b => cond b "true" "false"
  | _, .vNum none => "null"
  | _, .vNum (some q) => numToString (some q)
  | _, .vStr s => quoteJson s
  | ind, .vArr xs =>
      match jsonStringifyIndItems (ind + 2) xs with
      | [] => "[]"
      | parts => "[\n" ++ String.intercalate ",\n" parts ++ "\n" ++ spacesN ind ++ "]"
  | ind, .vObj fs =>
      match jsonStringifyIndFieldParts (ind + 2) fs with
      | [] => "\x7b\x7d"
      | parts => "\x7b\n" ++ String.intercalate ",\n" parts ++ "\n" ++ spacesN ind ++ "\x7d"

/-- Array items of the indented `JSON.stringify`. -/
def jsonStringifyIndItems : ℕ → List JsValue → List String
  | _, [] => []
  | ind, x :: xs =>
      (match x with
       | .vUndefined => spacesN ind ++ "null"
       | v => spacesN ind ++ jsonStringifyInd ind v) :: jsonStringifyIndItems ind xs

/-- Object fields of the indented `JSON.stringify`; `undefined` fields are
omitted. -/
def jsonStringifyIndFieldParts : ℕ → List (String × JsValue) → List String
  | _, [] => []
  | ind, (k, v) :: fs =>
      match v with
      | .vUndefined => jsonStringifyIndFieldParts ind fs
      | v => (spacesN ind ++ quoteJson k ++ ": " ++ jsonStringifyInd ind v) :: jsonStringifyIndFieldParts ind fs

end

/-- `JSON.stringify(value, null, 2)` as called in `handleCellClick`. -/
def jsonStringifyPretty (v : JsValue) : String :=
  jsonStringifyInd 0 v

mutual

/-- Model of the JavaScript `String(value)` conversion: `null` prints
`"null"`, `undefined` prints `"undefined"`, plain objects print
`"[object Object]"`, arrays join their elements with commas. -/
def jsToString : JsValue → String
  | .vNull => "null"
  | .vUndefined => "undefined"
  | .vBool b => cond b "true" "false"
  | .vNum n => numToString n
  | .vStr s => s
  | .vObj _ => "[object Object]"
  | .vArr xs => jsArrJoin xs

/-- `Array.prototype.toString`: elements joined by commas. -/
def jsArrJoin : List JsValue → String
  | [] => ""
  | [x] => jsArrElemString x
  | x :: xs => jsArrElemString x ++ "," ++ jsArrJoin xs

/-- One array element under `Array.prototype.toString`: `null` and
`undefined` render as the empty string. -/
def jsArrElemString : JsValue → String
  | .vNull => ""
  | .vUndefined => ""
  | v => jsToString v

end

/-- String parser for JSON string literals: characters up to the closing
quote, a backslash taking the next character literally. -/
def parseJsonStr (acc : List Char) : List Char → Option (String × List Char)
  | [] => none
  | '"' :: rest => some (String.mk acc.reverse, rest)
  | '\\' :: c :: rest => parseJsonStr (c :: acc) rest
  | ['\\'] => none
  | c :: rest => parseJsonStr (c :: acc) rest

/-- JSON number literal: optional minus, digits, optional fraction,
optional exponent. -/
def parseJsonNum (cs : List Char) : Option (ℚ × List Char) :=
  let signed : Bool × List Char :=
    match cs with
    | '-' :: r => (true, r)
    | _ => (false, cs)
  let (ip, cs1) := takeDigits signed.2
  if ip.isEmpty then none
  else
    let (fp, cs2) :=
      match cs1 with
      | '.' :: r => if (takeDigits r).1.isEmpty then ([], cs1) else takeDigits r
      | _ => ([], cs1)
    let base : ℚ := (digitsToNat ip : ℚ) + (digitsToNat fp : ℚ) / ((10 : ℚ) ^ fp.length)
    let expPart : Option (ℤ × List Char) :=
      match cs2 with
      | c :: r =>
          if c = 'e' ∨ c = 'E' then
            match r with
            | '+' :: rr => if (takeDigits rr).1.isEmpty then none else some ((digitsToNat (takeDigits rr).1 : ℤ), (takeDigits rr).2)
            | '-' :: rr => if (takeDigits rr).1.isEmpty then none else some (-(digitsToNat (takeDigits rr).1 : ℤ), (takeDigits rr).2)
            | _ => if (takeDigits r).1.isEmpty then none else some ((digitsToNat (takeDigits r).1 : ℤ), (takeDigits r).2)
          else none
      | [] => none
    let final : ℚ × List Char :=
      match expPart with
      | some (e, r3) => (base * (10 : ℚ) ^ e, r3)
      | none => (base, cs2)
    some ((if signed.1 then -final.1 else final.1), final.2)

mutual

/-- Fuel-indexed recursive-descent parse of one JSON value.  The fuel only
bounds nesting and list length; `jsonParse` supplies enough for any input
it is called on. -/
def parseJsonVal : ℕ → List Char → Option (JsValue × List Char)
  | 0, _ => none
  | Nat.succ fuel, cs =>
    match skipWs cs with
    | 'n' :: 'u' :: 'l' :: 'l' :: rest => some (.vNull, rest)
    | 't' :: 'r' :: 'u' :: 'e' :: rest => some (.vBool true, rest)
    | 'f' :: 'a' :: 'l' :: 's' :: 'e' :: rest => some (.vBool false, rest)
    | '"' :: rest =>
        (match parseJsonStr [] rest with
         | some (s, r) => some (.vStr s, r)
         | none => none)
    | '[' :: rest =>
        (match skipWs rest with
         | ']' :: r2 => some (.vArr [], r2)
         | r2 => parseJsonArr fuel r2)
    | '{' :: rest =>
        (match skipWs rest with
         | '}' :: r2 => some (.vObj [], r2)
         | r2 => parseJsonObj fuel r2)
    | cs2 =>
        (match parseJsonNum cs2 with
         | some (q, r) => some (.vNum (some q), r)
         | none => none)

/-- Elements of a non-empty JSON array, after the opening bracket. -/
def parseJsonArr : ℕ → List Char → Option (JsValue × List Char)
  | 0, _ => none
  | Nat.succ fuel, cs =>
    match parseJsonVal fuel cs with
    | none => none
    | some (v, r1) =>
      match skipWs r1 with
      | ',' :: r2 =>
          (match parseJsonArr fuel r2 with
           | some (.vArr vs, r3) => some (.vArr (v :: vs), r3)
           | _ => none)
      | ']' :: r2 => some (.vArr [v], r2)
      | _ => none

/-- Fields of a non-empty JSON object, after the opening brace. -/
def parseJsonObj : ℕ → List Char → Option (JsValue × List Char)
  | 0, _ => none
  | Nat.succ fuel, cs =>
    match skipWs cs with
    | '"' :: rest =>
      (match parseJsonStr [] rest with
       | none => none
       | some (k, r1) =>
         match skipWs r1 with
         | ':' :: r2 =>
           (match parseJsonVal fuel r2 with
            | none => none
            | some (v, r3) =>
              match skipWs r3 with
              | ',' :: r4 =>
                  (match parseJsonObj fuel r4 with
                   | some (.vObj fs, r5) => some (.vObj ((k, v) :: fs), r5)
                   | _ => none)
              | '}' :: r4 => some (.vObj [(k, v)], r4)
              | _ => none)
         | _ => none)
    | _ => none

end

/-- Model of `JSON.parse(text)` as a fallible computation: a parsed value,
or a syntax error (thrown as an exception in JavaScript, returned in
`Except` here). -/
def jsonParse (s : String) : Except String JsValue :=
  match parseJsonVal (2 * s.length + 2) s.toList with
  | some (v, rest) =>
      if (skipWs rest).isEmpty then .ok v
      else .error "SyntaxError: Unexpected non-whitespace character after JSON"
  | none => .error "SyntaxError: Unexpected token in JSON"

/-- Model of `String.prototype.includes`: `inclAux pat cs` is true when
`pat` occurs as a contiguous run inside `cs`. -/
def inclAux (pat : List Char) : List Char → Bool
  | [] => pat.isEmpty
  | c :: rest => pat.isPrefixOf (c :: rest) || inclAux pat rest

/-- `msg.includes(pat)` for strings. -/
def strIncludes (msg pat : String) : Bool :=
  inclAux pat.toList msg.toList


/-- A record (MongoDB document) as held in `documents`: field names with
their values, in insertion order, as a JavaScript object stores them. -/
abbrev Record : Type :=
  List (String × JsValue)

/-- JavaScript member access `v[k]` on the modelled values: the first field
of that name of an object, else `undefined`.  (In JavaScript, access on
`null`/`undefined` itself throws; the callers below model that throw
explicitly before using this function.) -/
def jsGet (v : JsValue) (k : String) : JsValue :=
  match v with
  | .vObj fs =>
      match fs.find? (fun p => p.1 == k) with
      | some p => p.2
      | none => .vUndefined
  | _ => .vUndefined

/-- JavaScript strict equality `===` on the values compared by the grid:
primitives by value, `NaN` unequal to everything including itself.
Composite values compare by object identity in JavaScript; identity is not
represented in this model, so the composite case is `false` — the
identifiers the grid actually compares are strings (or the `NaN` corner),
where this function is exact. -/
def jsStrictEq : JsValue → JsValue → Bool
  | .vNull, .vNull => true
  | .vUndefined, .vUndefined => true
  | .vBool a, .vBool b => a == b
  | .vNum (some a), .vNum (some b) => decide (a = b)
  | .vStr a, .vStr b => a == b
  | _, _ => false

/-- The identifier token of a record: `doc._id.$oid`. -/
def docOid (d : Record) : JsValue :=
  jsGet (jsGet (.vObj d) "_id") "$oid"

/-- JavaScript field assignment `doc[k] = v`: overwrite in place when the
key exists (order preserved), else append the new field last. -/
def setField (d : Record) (k : String) (v : JsValue) : Record :=
  if d.any (fun p => p.1 == k) then d.map (fun p => if p.1 == k then (k, v) else p)
  else d ++ [(k, v)]

/-- Mutation of the first record matching `pred` (the record `find`
returned) by assigning field `k`, as `originalDoc[header] = newValue`
does through the shared reference. -/
def updateFirstMatching (docs : List Record) (pred : Record → Bool) (k : String) (v : JsValue) : List Record :=
  match docs with
  | [] => []
  | d :: rest => if pred d then setField d k v :: rest else d :: updateFirstMatching rest pred k v

/-- The cell being edited: page-relative row index and column name
(`editingCell`). -/
structure EditingCell : Type where
  rowIndex : ℕ
  header : String

/-- The reactive state of `MongoDBDataTable.vue`: one field per `ref` of
the component. -/
structure GridState : Type where
  collectionName : String
  documents : List Record
  isLoading : Bool
  errorMessage : String
  pageSize : ℕ
  currentPage : ℤ
  filterQuery : String
  editingCell : Option EditingCell
  editValue : String
  isSaving : Bool
  collectionsList : List String

/-- The computed `totalPages = Math.ceil(documents.length / pageSize)`,
written with natural division; for positive `pageSize` this is exactly the
ceiling of the rational quotient (proved below), and it is `0` when
`documents` is empty. -/
def totalPages (docs : List Record) (pageSize : ℕ) : ℕ :=
  (docs.length + pageSize - 1) / pageSize

/-- `Array.prototype.slice(start, end)` with integer arguments: negative
indices count from the end, both bounds clamp to the array. -/
def jsSlice {α : Type} (l : List α) (s e : ℤ) : List α :=
  let n : ℤ := l.length
  let s2 : ℤ := if s < 0 then max (n + s) 0 else min s n
  let e2 : ℤ := if e < 0 then max (n + e) 0 else min e n
  (l.take e2.toNat).drop s2.toNat

/-- The computed `paginatedDocuments`: the slice
`documents.slice((currentPage-1)*pageSize, (currentPage-1)*pageSize + pageSize)`. -/
def paginatedDocuments (s : GridState) : List Record :=
  let start : ℤ := (s.currentPage - 1) * (s.pageSize : ℤ)
  jsSlice s.documents start (start + (s.pageSize : ℤ))

/-- One step of the header `Set`: add `k` unless already present (JavaScript
`Set.add` keeps insertion order and ignores duplicates). -/
def addHeader (hs : List String) (k : String) : List String :=
  if k ∈ hs then hs else hs ++ [k]

/-- The field names of a record, in object insertion order
(`Object.keys(doc)`). -/
def recordKeys (d : Record) : List String :=
  d.map Prod.fst

/-- The computed `tableHeaders`: a `Set` seeded with `"_id"`, then every key
of every document in order, converted back to an array. -/
def tableHeaders (docs : List Record) : List String :=
  docs.foldl (fun hs doc => (recordKeys doc).foldl addHeader hs) ["_id"]

/-- The `formatValue` helper: empty text for `undefined`/`null`, compact
JSON for composites, `String(value)` otherwise. -/
def formatValue (v : JsValue) : String :=
  match v with
  | .vUndefined => ""
  | .vNull => ""
  | v => if typeofJs v = "object" then jsonStringify v else jsToString v

/-- The coercion step of `saveEdit` (lines 116–121): parse the edited text
against the type of the reference value `originalDoc[header]` — numbers via
`parseFloat` (which never fails, `NaN` on non-numeric text), `typeof`
`"object"` values (objects, arrays and `null`) via `JSON.parse` (which can
fail), anything else passes through as a string. -/
def coerceValue (text : String) (ref : JsValue) : Except String JsValue :=
  if typeofJs ref = "number" then .ok (.vNum (parseFloat text))
  else if typeofJs ref = "object" then jsonParse text
  else .ok (.vStr text)

/-- The `handleCellClick` handler: ignore the identifier column, otherwise
open an edit session on the cell and seed the edit text from the clicked
value (indented JSON for `typeof`-object values, `String(value)`
otherwise). -/
def handleCellClick (s : GridState) (rowIndex : ℕ) (header : String) (value : JsValue) : GridState :=
  if header = "_id" then s
  else
    { s with
      editingCell := some ⟨rowIndex, header⟩,
      editValue := if typeofJs value = "object" then jsonStringifyPretty value else jsToString value }

/-- Outcome of the remote `update_document` call: a success flag, or a
thrown error rendered to its message text. -/
inductive RemoteOutcome : Type where
  | ok : Bool → RemoteOutcome
  | err : String → RemoteOutcome

/-- Result of a `saveEdit` run: the state afterwards, the single-field
update sent to `update_document` (if the call was reached), and whether an
uncaught exception escaped the handler (member access on `undefined`,
possible only outside the `try` block). -/
structure SaveOutcome : Type where
  state : GridState
  sentUpdate : Option (String × JsValue)
  crashed : Bool

/-- The `try`/`catch`/`finally` block of `saveEdit` (lines 114–139): coerce
the edited text against the field of the authoritative record, send the update,
and reconcile.  A thrown error — coercion failure or remote error — lands
in `catch`, which sets the display error but skips the
`editingCell.value = null` line; the local record is mutated only under
`success`. -/
def saveEditResolve (s1 : GridState) (cell : EditingCell) (originalDoc : Record) (oid : JsValue) (remote : RemoteOutcome) : SaveOutcome :=
  match coerceValue s1.editValue (jsGet (.vObj originalDoc) cell.header) with
  | .error e => ⟨{ s1 with errorMessage := "Error updating field: " ++ e, isSaving := false }, none, false⟩
  | .ok newValue =>
    match remote with
    | .err msg =>
        ⟨{ s1 with errorMessage := "Error updating field: " ++ msg, isSaving := false },
         some (cell.header, newValue), false⟩
    | .ok success =>
        let docs2 :=
          if success then updateFirstMatching s1.documents (fun d => jsStrictEq (docOid d) oid) cell.header newValue
          else s1.documents
        ⟨{ s1 with documents := docs2, editingCell := none, isSaving := false },
         some (cell.header, newValue), false⟩

/-- Line 111–112 of `saveEdit`: look the authoritative record up in
`documents` by the identifier token `idVal.$oid` of the clicked row, and return
early — leaving `isSaving` stuck at `true` — when the lookup misses
(`if (!originalDoc) return`). -/
def saveEditLookup (s1 : GridState) (cell : EditingCell) (idVal : JsValue) (remote : RemoteOutcome) : SaveOutcome :=
  let oid := jsGet idVal "$oid"
  match s1.documents.find? (fun d => jsStrictEq (docOid d) oid) with
  | none => ⟨s1, none, false⟩
  | some originalDoc => saveEditResolve s1 cell originalDoc oid remote

/-- The `doc._id.$oid` read of `saveEdit` (line 111): member access on a
missing or null `_id` throws a `TypeError` outside the `try` block. -/
def saveEditWithDoc (s1 : GridState) (cell : EditingCell) (doc : Record) (remote : RemoteOutcome) : SaveOutcome :=
  match jsGet (.vObj doc) "_id" with
  | .vUndefined => ⟨s1, none, true⟩
  | .vNull => ⟨s1, none, true⟩
  | idVal => saveEditLookup s1 cell idVal remote

/-- The `saveEdit` handler (lines 105–140), parameterised over the outcome
of the remote update call: the re-entrancy guard on `isSaving`, the row
taken from the current page slice, then the lookup/coerce/update chain of
the two helpers above. -/
def saveEdit (s : GridState) (remote : RemoteOutcome) : SaveOutcome :=
  match s.editingCell with
  | none => ⟨s, none, false⟩
  | some cell =>
    if s.isSaving then ⟨s, none, false⟩
    else
      let s1 := { s with isSaving := true }
      match (paginatedDocuments s)[cell.rowIndex]? with
      | none => ⟨s1, none, true⟩
      | some doc => saveEditWithDoc s1 cell doc remote

/-- Result of a `deleteDocument` run: the state afterwards and whether a
full refetch (`fetchDocuments()`) was triggered. -/
structure DeleteOutcome : Type where
  state : GridState
  refetch : Bool

/-- The `deleteDocument` handler, parameterised over the interactive
confirmation and the outcome of the remote delete call: on `success` it
refetches, on `success = false` it does nothing at all, on a thrown error
it sets the display error. -/
def deleteDocument (s : GridState) (confirmed : Bool) (remote : RemoteOutcome) : DeleteOutcome :=
  if confirmed then
    match remote with
    | .ok true => ⟨s, true⟩
    | .ok false => ⟨s, false⟩
    | .err msg => ⟨{ s with errorMessage := "Error deleting document: " ++ msg }, false⟩
  else ⟨s, false⟩

/-- Which loader a scheduled `setTimeout` retry re-invokes. -/
inductive RetryTarget : Type where
  | fetchDocumentsRetry : RetryTarget
  | fetchCollectionsRetry : RetryTarget

/-- Result of one loader run: the state afterwards and the retry timer it
scheduled, if any (delay in milliseconds and the function re-invoked). -/
structure LoadEffect : Type where
  state : GridState
  retry : Option (ℕ × RetryTarget)

/-- The sentinel substring distinguishing a transient not-ready failure. -/
def notReadySentinel : String :=
  "Database connection not initialized"

/-- The `fetchDocuments` loader, parameterised over the outcome of the
remote `find_documents` call (consulted only if the filter text parses):
it clears the error text up front; on success it replaces `documents` and
resets the page to 1; on a failure containing the sentinel it schedules an
identical retry after 1000 ms and sets no error; on any other failure it
sets the display error and clears `documents`. -/
def fetchDocumentsStep (s : GridState) (outcome : Except String (List Record)) : LoadEffect :=
  let s1 := { s with isLoading := true, errorMessage := "" }
  match jsonParse s1.filterQuery with
  | .error e =>
      ⟨{ s1 with errorMessage := "Invalid filter JSON: " ++ e, isLoading := false }, none⟩
  | .ok _ =>
      match outcome with
      | .ok docs =>
          ⟨{ s1 with documents := docs, currentPage := 1, isLoading := false }, none⟩
      | .error msg =>
          if strIncludes msg notReadySentinel then
            ⟨{ s1 with isLoading := false }, some (1000, .fetchDocumentsRetry)⟩
          else
            ⟨{ s1 with errorMessage := "Error fetching documents: " ++ msg, documents := [], isLoading := false }, none⟩

/-- The `fetchCollections` loader, parameterised over the outcome of the
remote `list_collections` call: on success it replaces the collection list
and, when the current collection is absent from a non-empty list, selects
the first entry; on a failure containing the sentinel it schedules an
identical retry after 1000 ms and touches nothing; on any other failure it
sets the display error and leaves the collection list untouched. -/
def fetchCollectionsStep (s : GridState) (outcome : Except String (List String)) : LoadEffect :=
  match outcome with
  | .ok cols =>
      let s1 := { s with collectionsList := cols }
      match cols with
      | [] => ⟨s1, none⟩
      | c :: _ =>
          if cols.contains s.collectionName then ⟨s1, none⟩
          else ⟨{ s1 with collectionName := c }, none⟩
  | .error msg =>
      if strIncludes msg notReadySentinel then ⟨s, some (1000, .fetchCollectionsRetry)⟩
      else ⟨{ s with errorMessage := "Error fetching collections: " ++ msg }, none⟩

/-- The `onPageChange` handler: assign the requested page, with no
clamping. -/
def onPageChange (s : GridState) (page : ℤ) : GridState :=
  { s with currentPage := page }

/-- Selecting a page size in the rows-per-page select: assigns `pageSize`
and touches nothing else. -/
def setPageSize (s : GridState) (n : ℕ) : GridState :=
  { s with pageSize := n }

/-- The `PaginationFirst` button: `currentPage = 1`. -/
def navFirst (s : GridState) : GridState :=
  { s with currentPage := 1 }

/-- The `PaginationPrev` button: `currentPage = Math.max(1, currentPage - 1)`. -/
def navPrev (s : GridState) : GridState :=
  { s with currentPage := max 1 (s.currentPage - 1) }

/-- The `PaginationNext` button: `currentPage = Math.min(totalPages, currentPage + 1)`. -/
def navNext (s : GridState) : GridState :=
  { s with currentPage := min (totalPages s.documents s.pageSize : ℤ) (s.currentPage + 1) }

/-- The `PaginationLast` button: `currentPage = totalPages`. -/
def navLast (s : GridState) : GridState :=
  { s with currentPage := (totalPages s.documents s.pageSize : ℤ) }

/-- The pagination invariant claimed by the specification:
`1 ≤ current_page ≤ max(1, ceil(total/size))`. -/
def pageInvariant (s : GridState) : Prop :=
  1 ≤ s.currentPage ∧ s.currentPage ≤ max 1 (totalPages s.documents s.pageSize : ℤ)

instance (s : GridState) : Decidable (pageInvariant s) := by
  unfold pageInvariant
  infer_instance

/-- First-appearance deduplication, the order the specification ascribes to
the Column Set: `dedupFirstAux seen l` keeps, in order, the first
occurrence of each element of `l` not already in `seen`. -/
def dedupFirstAux (seen : List String) : List String → List String
  | [] => []
  | k :: ks => if k ∈ seen then dedupFirstAux seen ks else k :: dedupFirstAux (k :: seen) ks

/-- All field names of a batch of records, in record order then field
order: the sequence the Schema Unioner deduplicates. -/
def allKeys : List Record → List String
  | [] => []
  | d :: ds => recordKeys d ++ allKeys ds

/-- A backend identifier token `{$oid: "..."}`. -/
def oidToken (s : String) : JsValue :=
  .vObj [("$oid", .vStr s)]

/-- Fixture record with a string name and a numeric age. -/
def docBob : Record :=
  [("_id", oidToken "a1"), ("name", .vStr "Bob"), ("age", .vNum (some 30))]

/-- Fixture record with an object-valued field. -/
def docMeta : Record :=
  [("_id", oidToken "b2"), ("meta", .vObj [("x", .vNum (some 1))])]

/-- Fixture record whose identifier token is `NaN` — the one value strict
equality never matches, so the authoritative-record lookup misses it. -/
def docNanId : Record :=
  [("_id", .vObj [("$oid", .vNum none)]), ("name", .vStr "Ann")]

/-- The component state right after setup: the initial values of each ref. -/
def baseState : GridState :=
  { collectionName := "users"
    documents := []
    isLoading := false
    errorMessage := ""
    pageSize := 10
    currentPage := 1
    filterQuery := "\x7b\x7d"
    editingCell := none
    editValue := ""
    isSaving := false
    collectionsList := ["users"] }

/-- State with `docBob` loaded and an edit session open on its numeric
`age` cell holding `text`. -/
def editAgeState (text : String) : GridState :=
  { baseState with documents := [docBob], editingCell := some ⟨0, "age"⟩, editValue := text }

/-- State with `docMeta` loaded and an edit session open on its
object-valued `meta` cell holding malformed JSON text. -/
def editMetaState : GridState :=
  { baseState with documents := [docMeta], editingCell := some ⟨0, "meta"⟩, editValue := "x" }

/-- State with `docNanId` loaded and an edit session open on its `name`
cell. -/
def nanIdState : GridState :=
  { baseState with documents := [docNanId], editingCell := some ⟨0, "name"⟩, editValue := "y" }

/-- State with a single record loaded and the default page settings. -/
def singleDocState : GridState :=
  { baseState with documents := [docBob] }

/-! ### Helper lemmas -/

theorem dedupFirstAux_congrSeen (l : List String) :
    ∀ s1 s2, (∀ x, x ∈ s1 ↔ x ∈ s2) → dedupFirstAux s1 l = dedupFirstAux s2 l := by
  induction l with
  | nil => intro s1 s2 _; rfl
  | cons k ks ih =>
      intro s1 s2 hiff
      by_cases hk : k ∈ s1
      · rw [dedupFirstAux, if_pos hk, dedupFirstAux, if_pos ((hiff k).mp hk)]
        exact ih s1 s2 hiff
      · rw [dedupFirstAux, if_neg hk, dedupFirstAux, if_neg (fun h => hk ((hiff k).mpr h))]
        refine congrArg (k :: ·) (ih _ _ ?_)
        intro x
        simp only [List.mem_cons]
        exact or_congr Iff.rfl (hiff x)

theorem foldl_addHeader_eq (l : List String) :
    ∀ hs, l.foldl addHeader hs = hs ++ dedupFirstAux hs l := by
  induction l with
  | nil => intro hs; simp [dedupFirstAux]
  | cons k ks ih =>
      intro hs
      by_cases hk : k ∈ hs
      · rw [List.foldl_cons, dedupFirstAux, if_pos hk]
        have : addHeader hs k = hs := by rw [addHeader, if_pos hk]
        rw [this]
        exact ih hs
      · rw [List.foldl_cons, dedupFirstAux, if_neg hk]
        have hstep : addHeader hs k = hs ++ [k] := by rw [addHeader, if_neg hk]
        rw [hstep, ih (hs ++ [k])]
        have hseen : dedupFirstAux (hs ++ [k]) ks = dedupFirstAux (k :: hs) ks := by
          refine dedupFirstAux_congrSeen ks _ _ ?_
          intro x
          simp [or_comm]
        rw [hseen, List.append_assoc]
        rfl

theorem mem_dedupFirstAux (l : List String) :
    ∀ seen x, x ∈ dedupFirstAux seen l ↔ x ∈ l ∧ x ∉ seen := by
  induction l with
  | nil => intro seen x; simp [dedupFirstAux]
  | cons k ks ih =>
      intro seen x
      by_cases hk : k ∈ seen
      · rw [dedupFirstAux, if_pos hk, ih]
        simp only [List.mem_cons]
        constructor
        · rintro ⟨hx, hns⟩; exact ⟨Or.inr hx, hns⟩
        · rintro ⟨hx | hx, hns⟩
          · exact absurd (hx ▸ hk) hns
          · exact ⟨hx, hns⟩
      · rw [dedupFirstAux, if_neg hk]
        simp only [List.mem_cons, ih, List.mem_cons]
        constructor
        · rintro (rfl | ⟨hx, hns⟩)
          · exact ⟨Or.inl rfl, hk⟩
          · exact ⟨Or.inr hx, fun h => hns (Or.inr h)⟩
        · rintro ⟨rfl | hx, hns⟩
          · exact Or.inl rfl
          · by_cases hxk : x = k
            · exact Or.inl hxk
            · exact Or.inr ⟨hx, fun h => (by rcases h with h | h; exact hxk h; exact hns h : False)⟩

theorem nodup_dedupFirstAux (l : List String) :
    ∀ seen, (dedupFirstAux seen l).Nodup := by
  induction l with
  | nil => intro seen; simp [dedupFirstAux]
  | cons k ks ih =>
      intro seen
      by_cases hk : k ∈ seen
      · rw [dedupFirstAux, if_pos hk]; exact ih seen
      · rw [dedupFirstAux, if_neg hk]
        refine List.nodup_cons.mpr ⟨?_, ih _⟩
        intro hmem
        exact ((mem_dedupFirstAux ks _ k).mp hmem).2 (List.mem_cons_self k seen)

theorem tableHeaders_eq_foldl_allKeys (docs : List Record) :
    ∀ hs, docs.foldl (fun hs doc => (recordKeys doc).foldl addHeader hs) hs
      = (allKeys docs).foldl addHeader hs := by
  induction docs with
  | nil => intro hs; rfl
  | cons d ds ih =>
      intro hs
      rw [List.foldl_cons, ih, allKeys, List.foldl_append]

theorem allKeys_append (a b : List Record) :
    allKeys (a ++ b) = allKeys a ++ allKeys b := by
  induction a with
  | nil => rfl
  | cons d ds ih => rw [List.cons_append, allKeys, allKeys, ih, List.append_assoc]

theorem foldl_addHeader_noop (l : List String) :
    ∀ hs, (∀ k, k ∈ l → k ∈ hs) → l.foldl addHeader hs = hs := by
  induction l with
  | nil => intro hs _; rfl
  | cons k ks ih =>
      intro hs hmem
      rw [List.foldl_cons, addHeader, if_pos (hmem k (List.mem_cons_self k ks))]
      exact ih hs (fun x hx => hmem x (List.mem_cons_of_mem k hx))

theorem tableHeaders_eq_allKeys (docs : List Record) :
    tableHeaders docs = (allKeys docs).foldl addHeader ["_id"] :=
  tableHeaders_eq_foldl_allKeys docs ["_id"]

theorem tableHeaders_normal_form (docs : List Record) :
    tableHeaders docs = "_id" :: dedupFirstAux ["_id"] (allKeys docs) := by
  rw [tableHeaders_eq_allKeys, foldl_addHeader_eq]
  rfl

theorem mem_tableHeaders (docs : List Record) (k : String) :
    k ∈ tableHeaders docs ↔ k = "_id" ∨ k ∈ allKeys docs := by
  rw [tableHeaders_normal_form, List.mem_cons, mem_dedupFirstAux]
  constructor
  · rintro (rfl | ⟨hk, _⟩)
    · exact Or.inl rfl
    · exact Or.inr hk
  · rintro (rfl | hk)
    · exact Or.inl rfl
    · by_cases hid : k = "_id"
      · exact Or.inl hid
      · exact Or.inr ⟨hk, by simpa using hid⟩

theorem tableHeaders_idempotent (docs : List Record) :
    tableHeaders (docs ++ docs) = tableHeaders docs := by
  rw [tableHeaders_eq_allKeys, tableHeaders_eq_allKeys, allKeys_append, List.foldl_append]
  exact foldl_addHeader_noop _ _
    (fun k hk => by
      have := (mem_tableHeaders docs k).mpr (Or.inr hk)
      rwa [tableHeaders_eq_allKeys] at this)

theorem totalPages_eq_ceilQ (docs : List Record) (ps : ℕ) (h : 0 < ps) :
    (totalPages docs ps : ℤ) = Int.ceil ((docs.length : ℚ) / (ps : ℚ)) := by
  have hps : (0 : ℚ) < (ps : ℚ) := by exact_mod_cast h
  symm
  rw [Int.ceil_eq_iff]
  have hB : totalPages docs ps * ps ≤ docs.length + ps - 1 := Nat.div_mul_le_self _ _
  have hA : docs.length ≤ totalPages docs ps * ps := by
    have h2 : docs.length + ps - 1 < (totalPages docs ps + 1) * ps :=
      (Nat.div_lt_iff_lt_mul h).mp (Nat.lt_succ_self _)
    rw [Nat.succ_mul] at h2
    omega
  constructor
  · rw [sub_lt_iff_lt_add]
    rw [div_add' _ _ _ (ne_of_gt hps), lt_div_iff₀ hps]
    have hB2 : totalPages docs ps * ps + 1 ≤ docs.length + ps := by omega
    have : (totalPages docs ps : ℚ) * ps + 1 ≤ (docs.length : ℚ) + ps := by exact_mod_cast hB2
    push_cast
    nlinarith [this]
  · rw [div_le_iff₀ hps]
    exact_mod_cast hA

theorem saveEditResolve_docs_or (s1 : GridState) (cell : EditingCell) (od : Record) (oid : JsValue) (remote : RemoteOutcome) :
    (saveEditResolve s1 cell od oid remote).state.documents = s1.documents ∨ remote = RemoteOutcome.ok true := by
  unfold saveEditResolve
  cases hc : coerceValue s1.editValue (jsGet (.vObj od) cell.header) with
  | error e => left; rfl
  | ok v =>
    cases remote with
    | err m => left; rfl
    | ok b =>
      cases b with
      | false => left; rfl
      | true => right; rfl

theorem saveEditLookup_docs_or (s1 : GridState) (cell : EditingCell) (idVal : JsValue) (remote : RemoteOutcome) :
    (saveEditLookup s1 cell idVal remote).state.documents = s1.documents ∨ remote = RemoteOutcome.ok true := by
  unfold saveEditLookup
  dsimp only
  cases hf : s1.documents.find? (fun d => jsStrictEq (docOid d) (jsGet idVal "$oid")) with
  | none => left; rfl
  | some od => exact saveEditResolve_docs_or s1 cell od _ remote

theorem saveEditWithDoc_docs_or (s1 : GridState) (cell : EditingCell) (doc : Record) (remote : RemoteOutcome) :
    (saveEditWithDoc s1 cell doc remote).state.documents = s1.documents ∨ remote = RemoteOutcome.ok true := by
  unfold saveEditWithDoc
  cases hid : jsGet (.vObj doc) "_id" <;>
    first
      | exact Or.inl rfl
      | exact saveEditLookup_docs_or s1 cell _ remote

theorem saveEdit_docs_or (s : GridState) (remote : RemoteOutcome) :
    (saveEdit s remote).state.documents = s.documents ∨ remote = RemoteOutcome.ok true := by
  unfold saveEdit
  cases hec : s.editingCell with
  | none => left; rfl
  | some cell =>
    by_cases hsv : s.isSaving = true
    · simp [hsv]
    · simp only [hsv, if_false]
      cases hrow : (paginatedDocuments s)[cell.rowIndex]? with
      | none => left; rfl
      | some doc => exact saveEditWithDoc_docs_or _ cell doc remote

theorem saveEditResolve_coerceErr (s1 : GridState) (cell : EditingCell) (od : Record) (oid : JsValue)
    (remote : RemoteOutcome) (e : String)
    (hc : coerceValue s1.editValue (jsGet (.vObj od) cell.header) = .error e) :
    saveEditResolve s1 cell od oid remote
      = ⟨{ s1 with errorMessage := "Error updating field: " ++ e, isSaving := false }, none, false⟩ := by
  unfold saveEditResolve
  rw [hc]

theorem saveEditResolve_remoteErr (s1 : GridState) (cell : EditingCell) (od : Record) (oid : JsValue)
    (msg : String) (v : JsValue)
    (hc : coerceValue s1.editValue (jsGet (.vObj od) cell.header) = .ok v) :
    saveEditResolve s1 cell od oid (.err msg)
      = ⟨{ s1 with errorMessage := "Error updating field: " ++ msg, isSaving := false },
         some (cell.header, v), false⟩ := by
  unfold saveEditResolve
  rw [hc]

theorem saveEditResolve_remoteOk (s1 : GridState) (cell : EditingCell) (od : Record) (oid : JsValue)
    (b : Bool) (v : JsValue)
    (hc : coerceValue s1.editValue (jsGet (.vObj od) cell.header) = .ok v) :
    saveEditResolve s1 cell od oid (.ok b)
      = ⟨{ s1 with
            documents := if b then updateFirstMatching s1.documents (fun d => jsStrictEq (docOid d) oid) cell.header v else s1.documents,
            editingCell := none, isSaving := false },
         some (cell.header, v), false⟩ := by
  unfold saveEditResolve
  rw [hc]

theorem saveEditLookup_miss (s1 : GridState) (cell : EditingCell) (idVal : JsValue) (remote : RemoteOutcome)
    (hf : s1.documents.find? (fun d => jsStrictEq (docOid d) (jsGet idVal "$oid")) = none) :
    saveEditLookup s1 cell idVal remote = ⟨s1, none, false⟩ := by
  unfold saveEditLookup
  dsimp only
  rw [hf]

theorem saveEditLookup_hit (s1 : GridState) (cell : EditingCell) (idVal : JsValue) (remote : RemoteOutcome)
    (od : Record)
    (hf : s1.documents.find? (fun d => jsStrictEq (docOid d) (jsGet idVal "$oid")) = some od) :
    saveEditLookup s1 cell idVal remote = saveEditResolve s1 cell od (jsGet idVal "$oid") remote := by
  unfold saveEditLookup
  dsimp only
  rw [hf]

theorem saveEditWithDoc_obj (s1 : GridState) (cell : EditingCell) (doc : Record) (remote : RemoteOutcome)
    (idf : List (String × JsValue))
    (hid : jsGet (.vObj doc) "_id" = .vObj idf) :
    saveEditWithDoc s1 cell doc remote = saveEditLookup s1 cell (.vObj idf) remote := by
  unfold saveEditWithDoc
  rw [hid]

theorem saveEdit_reduce (s : GridState) (remote : RemoteOutcome) (cell : EditingCell) (doc : Record)
    (h1 : s.editingCell = some cell) (h2 : s.isSaving = false)
    (h3 : (paginatedDocuments s)[cell.rowIndex]? = some doc) :
    saveEdit s remote = saveEditWithDoc { s with isSaving := true } cell doc remote := by
  unfold saveEdit
  rw [h1]
  simp only [h2, Bool.false_eq_true, if_false]
  rw [h3]

theorem saveEditResolve_err_spec (s1 : GridState) (cell : EditingCell) (od : Record) (oid : JsValue) (msg : String) :
    (saveEditResolve s1 cell od oid (.err msg)).state.documents = s1.documents
    ∧ ((saveEditResolve s1 cell od oid (.err msg)).sentUpdate.isSome = true →
        (saveEditResolve s1 cell od oid (.err msg)).state.errorMessage = "Error updating field: " ++ msg) := by
  unfold saveEditResolve
  cases hc : coerceValue s1.editValue (jsGet (.vObj od) cell.header) with
  | error e => exact ⟨rfl, by intro h; simp at h⟩
  | ok v => exact ⟨rfl, fun _ => rfl⟩

theorem saveEditLookup_err_spec (s1 : GridState) (cell : EditingCell) (idVal : JsValue) (msg : String) :
    (saveEditLookup s1 cell idVal (.err msg)).state.documents = s1.documents
    ∧ ((saveEditLookup s1 cell idVal (.err msg)).sentUpdate.isSome = true →
        (saveEditLookup s1 cell idVal (.err msg)).state.errorMessage = "Error updating field: " ++ msg) := by
  unfold saveEditLookup
  dsimp only
  cases hf : s1.documents.find? (fun d => jsStrictEq (docOid d) (jsGet idVal "$oid")) with
  | none => exact ⟨rfl, by intro h; simp at h⟩
  | some od => exact saveEditResolve_err_spec s1 cell od _ msg

theorem saveEditWithDoc_err_spec (s1 : GridState) (cell : EditingCell) (doc : Record) (msg : String) :
    (saveEditWithDoc s1 cell doc (.err msg)).state.documents = s1.documents
    ∧ ((saveEditWithDoc s1 cell doc (.err msg)).sentUpdate.isSome = true →
        (saveEditWithDoc s1 cell doc (.err msg)).state.errorMessage = "Error updating field: " ++ msg) := by
  unfold saveEditWithDoc
  cases hid : jsGet (.vObj doc) "_id" <;>
    first
      | exact ⟨rfl, by intro h; simp at h⟩
      | exact saveEditLookup_err_spec s1 cell _ msg

theorem saveEdit_err_spec (s : GridState) (msg : String) :
    (saveEdit s (.err msg)).state.documents = s.documents
    ∧ ((saveEdit s (.err msg)).sentUpdate.isSome = true →
        (saveEdit s (.err msg)).state.errorMessage = "Error updating field: " ++ msg) := by
  unfold saveEdit
  cases hec : s.editingCell with
  | none => exact ⟨rfl, by intro h; simp at h⟩
  | some cell =>
    by_cases hsv : s.isSaving = true
    · simp [hsv]
    · simp only [hsv, if_false]
      cases hrow : (paginatedDocuments s)[cell.rowIndex]? with
      | none => exact ⟨rfl, by intro h; simp at h⟩
      | some doc => exact saveEditWithDoc_err_spec _ cell doc msg

theorem nav_buttons_preserve_invariant (s : GridState)
    (hinv : pageInvariant s) (htp : 1 ≤ totalPages s.documents s.pageSize) :
    pageInvariant (navFirst s) ∧ pageInvariant (navPrev s)
      ∧ pageInvariant (navNext s) ∧ pageInvariant (navLast s) := by
  obtain ⟨h1, h2⟩ := hinv
  have htpz : (1 : ℤ) ≤ (totalPages s.documents s.pageSize : ℤ) := by exact_mod_cast htp
  refine ⟨⟨le_refl 1, le_max_left 1 _⟩, ⟨le_max_left 1 _, ?_⟩, ⟨?_, ?_⟩, ⟨htpz, le_max_right 1 _⟩⟩
  · exact max_le (le_max_left 1 _) (le_trans (by omega) h2)
  · exact le_min htpz (by omega)
  · exact le_trans (min_le_left _ _) (le_max_right 1 _)

/-! ### Claim theorems -/

/-- Claim C1, counterexample: committing the numeric `age` field (reference
value 30) with the non-numeric text `"abc"` does NOT fail the coercion —
`parseFloat` returns `NaN`, the coercion succeeds with the number `NaN`,
the update is sent with that value, and no input-validation error is
surfaced (the error text stays empty). -/
theorem claim1_counterexample :
    coerceValue "abc" (.vNum (some 30)) = .ok (.vNum none)
    ∧ (saveEdit (editAgeState "abc") (.ok true)).sentUpdate = some ("age", .vNum none)
    ∧ (saveEdit (editAgeState "abc") (.ok true)).state.errorMessage = "" := by
  refine ⟨?_, ?_, ?_⟩ <;> with_unfolding_all rfl

/-- Claim C1 as amended: when the reference value is a number the edited
text is always coerced through `parseFloat` and the update is sent with a
numeric value — reference 30 and text `"31"` send `{age: 31}` as the
number 31 — but a non-numeric text does not produce a coercion failure:
`parseFloat` yields `NaN` (`parseFloat "abc" = none` in the model), which
is sent silently as the numeric update value with no input-validation
error. -/
theorem claim1_numeric_coercion :
    (∀ text r, coerceValue text (.vNum r) = .ok (.vNum (parseFloat text)))
    ∧ parseFloat "31" = some 31
    ∧ (saveEdit (editAgeState "31") (.ok true)).sentUpdate = some ("age", .vNum (some 31))
    ∧ (saveEdit (editAgeState "31") (.ok true)).state.documents
        = [[("_id", oidToken "a1"), ("name", .vStr "Bob"), ("age", .vNum (some 31))]]
    ∧ parseFloat "abc" = none
    ∧ (saveEdit (editAgeState "abc") (.ok true)).state.errorMessage = "" := by
  refine ⟨fun text r => by with_unfolding_all rfl, ?_, ?_, ?_, ?_, ?_⟩ <;> with_unfolding_all rfl

/-- Claim C2, counterexample: for the empty record collection and page size
10 the computed page count is 0, not the claimed minimum of 1. -/
theorem claim2_counterexample :
    totalPages ([] : List Record) 10 = 0 ∧ totalPages ([] : List Record) 10 ≠ 1 := by
  constructor
  · rfl
  · decide

/-- Claim C2 as amended: for every record collection and positive page
size, the computed page count is exactly `ceil(total / size)` with NO
minimum clamp — in particular it is 0 (not 1) when the collection is
empty. -/
theorem claim2_page_count (docs : List Record) (ps : ℕ) (h : 0 < ps) :
    (totalPages docs ps : ℤ) = Int.ceil ((docs.length : ℚ) / (ps : ℚ))
    ∧ (docs = [] → totalPages docs ps = 0) := by
  refine ⟨totalPages_eq_ceilQ docs ps h, ?_⟩
  rintro rfl
  show (0 + ps - 1) / ps = 0
  apply Nat.div_eq_of_lt
  omega

/-- Witness for `claim2_page_count` at the empty collection and page size
10. -/
theorem claim2_page_count_witness :
    0 < 10
    ∧ ((totalPages ([] : List Record) 10 : ℤ)
        = Int.ceil ((([] : List Record).length : ℚ) / ((10 : ℕ) : ℚ))
      ∧ (([] : List Record) = [] → totalPages ([] : List Record) 10 = 0)) :=
  ⟨by decide, claim2_page_count [] 10 (by decide)⟩

/-- Claim C3, counterexample: from a legal state (one record, page size 10,
page 1) the page-change request for page 5 is stored unclamped, leaving the
current page past the last page — the claimed invariant does not survive an
out-of-range request. -/
theorem claim3_counterexample :
    pageInvariant singleDocState ∧ ¬ pageInvariant (onPageChange singleDocState 5) := by
  constructor <;> decide

/-- Claim C3 as amended: `onPageChange` stores the requested page verbatim
with no clamping, and changing the page size leaves the current page
untouched (nothing recomputes or clamps it), so the invariant
`1 ≤ current_page ≤ max(1, ceil(total/size))` is not restored by those
operations; only the dedicated first/prev/next/last controls saturate, and
they do preserve the invariant whenever the page count is at least 1. -/
theorem claim3_pagination (s : GridState) (p : ℤ) (n : ℕ)
    (hinv : pageInvariant s) (htp : 1 ≤ totalPages s.documents s.pageSize) :
    (onPageChange s p).currentPage = p
    ∧ (setPageSize s n).currentPage = s.currentPage
    ∧ (setPageSize s n).pageSize = n
    ∧ pageInvariant (navFirst s) ∧ pageInvariant (navPrev s)
    ∧ pageInvariant (navNext s) ∧ pageInvariant (navLast s) := by
  obtain ⟨a, b, c, d⟩ := nav_buttons_preserve_invariant s hinv htp
  exact ⟨rfl, rfl, rfl, a, b, c, d⟩

/-- Witness for `claim3_pagination` at the single-record state, requested
page 7 and new page size 5. -/
theorem claim3_pagination_witness :
    pageInvariant singleDocState
    ∧ 1 ≤ totalPages singleDocState.documents singleDocState.pageSize
    ∧ (onPageChange singleDocState 7).currentPage = 7
    ∧ (setPageSize singleDocState 5).currentPage = singleDocState.currentPage
    ∧ pageInvariant (navNext singleDocState) := by
  have h := claim3_pagination singleDocState 7 5 (by decide) (by decide)
  exact ⟨by decide, by decide, h.1, h.2.1, h.2.2.2.2.2.1⟩

/-- Claim C4: the Schema Unioner pins `"_id"` first, lists every field name
present in any record exactly once (`Nodup` plus the membership
characterisation), orders the rest by first appearance (the
`dedupFirstAux` normal form), and is idempotent on a repeated batch. -/
theorem claim4_schema_unioner (docs : List Record) :
    (tableHeaders docs).head? = some "_id"
    ∧ (tableHeaders docs).Nodup
    ∧ (∀ k, k ∈ tableHeaders docs ↔ (k = "_id" ∨ k ∈ allKeys docs))
    ∧ tableHeaders docs = "_id" :: dedupFirstAux ["_id"] (allKeys docs)
    ∧ tableHeaders (docs ++ docs) = tableHeaders docs := by
  refine ⟨?_, ?_, mem_tableHeaders docs, tableHeaders_normal_form docs, tableHeaders_idempotent docs⟩
  · rw [tableHeaders_normal_form]
    rfl
  · rw [tableHeaders_normal_form]
    refine List.nodup_cons.mpr ⟨?_, nodup_dedupFirstAux _ _⟩
    intro hmem
    exact ((mem_dedupFirstAux _ _ _).mp hmem).2 (List.mem_cons_self _ _)

/-- Claim C5: on a remote failure whose message contains the
not-initialized sentinel, `fetchDocuments` schedules an identical retry
after 1000 ms with no user-visible error and the records untouched, and
`fetchCollections` does the same leaving its whole state untouched; on any
other failure message, the error is surfaced and the record collection is
cleared on the find-documents path while the collection list is left
untouched on the list-collections path. -/
theorem claim5_loader (s : GridState) (msg : String) :
    ((∃ v, jsonParse s.filterQuery = Except.ok v) → strIncludes msg notReadySentinel = true →
        fetchDocumentsStep s (.error msg)
          = ⟨{ s with isLoading := false, errorMessage := "" }, some (1000, .fetchDocumentsRetry)⟩)
    ∧ ((∃ v, jsonParse s.filterQuery = Except.ok v) → strIncludes msg notReadySentinel = false →
        (fetchDocumentsStep s (.error msg)).state.errorMessage = "Error fetching documents: " ++ msg
        ∧ (fetchDocumentsStep s (.error msg)).state.documents = []
        ∧ (fetchDocumentsStep s (.error msg)).retry = none)
    ∧ (strIncludes msg notReadySentinel = true →
        fetchCollectionsStep s (.error msg) = ⟨s, some (1000, .fetchCollectionsRetry)⟩)
    ∧ (strIncludes msg notReadySentinel = false →
        (fetchCollectionsStep s (.error msg)).state.errorMessage = "Error fetching collections: " ++ msg
        ∧ (fetchCollectionsStep s (.error msg)).state.collectionsList = s.collectionsList
        ∧ (fetchCollectionsStep s (.error msg)).retry = none) := by
  refine ⟨?_, ?_, ?_, ?_⟩
  · rintro ⟨v, hv⟩ hsent
    unfold fetchDocumentsStep
    dsimp only
    rw [hv]
    simp [hsent]
  · rintro ⟨v, hv⟩ hsent
    unfold fetchDocumentsStep
    dsimp only
    rw [hv]
    simp [hsent]
  · intro hsent
    unfold fetchCollectionsStep
    simp [hsent]
  · intro hsent
    unfold fetchCollectionsStep
    simp [hsent]

/-- Witness for `claim5_loader` at the initial state, with a sentinel
failure message and a terminal one. -/
theorem claim5_loader_witness :
    fetchDocumentsStep baseState (.error "Database connection not initialized")
      = ⟨{ baseState with isLoading := false, errorMessage := "" }, some (1000, .fetchDocumentsRetry)⟩
    ∧ (fetchDocumentsStep baseState (.error "boom")).state.errorMessage = "Error fetching documents: boom"
    ∧ (fetchDocumentsStep baseState (.error "boom")).state.documents = []
    ∧ fetchCollectionsStep baseState (.error "Database connection not initialized")
      = ⟨baseState, some (1000, .fetchCollectionsRetry)⟩
    ∧ (fetchCollectionsStep baseState (.error "other")).state.collectionsList = baseState.collectionsList := by
  have h1 := claim5_loader baseState "Database connection not initialized"
  have h2 := claim5_loader baseState "boom"
  have h3 := claim5_loader baseState "other"
  refine ⟨h1.1 ⟨.vObj [], by with_unfolding_all rfl⟩ (by with_unfolding_all rfl), ?_, ?_, ?_, ?_⟩
  · exact (h2.2.1 ⟨.vObj [], by with_unfolding_all rfl⟩ (by with_unfolding_all rfl)).1
  · exact (h2.2.1 ⟨.vObj [], by with_unfolding_all rfl⟩ (by with_unfolding_all rfl)).2.1
  · exact h1.2.2.1 (by with_unfolding_all rfl)
  · exact (h3.2.2.2 (by with_unfolding_all rfl)).2.1

/-- Claim C6: a commit mutates the local record collection only when the
remote update reports success; a remote error surfaces as the display
error and leaves the records unchanged; a coercion failure (spelled out
through the lookup chain of `saveEdit`) surfaces as the display error,
leaves the records unchanged, and sends no remote call. -/
theorem claim6_commit_atomicity (s : GridState) (remote : RemoteOutcome) :
    ((saveEdit s remote).state.documents ≠ s.documents → remote = RemoteOutcome.ok true)
    ∧ (∀ msg, remote = RemoteOutcome.err msg → (saveEdit s remote).sentUpdate.isSome = true →
        (saveEdit s remote).state.errorMessage = "Error updating field: " ++ msg
        ∧ (saveEdit s remote).state.documents = s.documents)
    ∧ (∀ cell doc idf od e,
        s.editingCell = some cell → s.isSaving = false →
        (paginatedDocuments s)[cell.rowIndex]? = some doc →
        jsGet (.vObj doc) "_id" = .vObj idf →
        s.documents.find? (fun d => jsStrictEq (docOid d) (jsGet (.vObj idf) "$oid")) = some od →
        coerceValue s.editValue (jsGet (.vObj od) cell.header) = .error e →
        (saveEdit s remote).state.errorMessage = "Error updating field: " ++ e
        ∧ (saveEdit s remote).state.documents = s.documents
        ∧ (saveEdit s remote).sentUpdate = none) := by
  refine ⟨fun hne => (saveEdit_docs_or s remote).resolve_left hne, ?_, ?_⟩
  · rintro msg rfl hsome
    exact ⟨(saveEdit_err_spec s msg).2 hsome, (saveEdit_err_spec s msg).1⟩
  · intro cell doc idf od e h1 h2 h3 h4 h5 h6
    rw [saveEdit_reduce s remote cell doc h1 h2 h3,
      saveEditWithDoc_obj _ cell doc remote idf h4,
      saveEditLookup_hit { s with isSaving := true } cell (.vObj idf) remote od h5,
      saveEditResolve_coerceErr { s with isSaving := true } cell od _ remote e h6]
    exact ⟨rfl, rfl, rfl⟩

/-- Witness for `claim6_commit_atomicity`: a coercion failure on the
object-valued `meta` cell surfaces the error, leaves the record unchanged
and sends nothing; a remote error on the numeric `age` commit surfaces the
error and leaves the record unchanged. -/
theorem claim6_commit_atomicity_witness :
    (saveEdit editMetaState (.ok true)).state.errorMessage
      = "Error updating field: SyntaxError: Unexpected token in JSON"
    ∧ (saveEdit editMetaState (.ok true)).state.documents = editMetaState.documents
    ∧ (saveEdit editMetaState (.ok true)).sentUpdate = none
    ∧ (saveEdit (editAgeState "31") (.err "boom")).state.errorMessage = "Error updating field: boom"
    ∧ (saveEdit (editAgeState "31") (.err "boom")).state.documents = (editAgeState "31").documents := by
  have hm := (claim6_commit_atomicity editMetaState (.ok true)).2.2
    ⟨0, "meta"⟩ docMeta [("$oid", .vStr "b2")] docMeta "SyntaxError: Unexpected token in JSON"
    (by with_unfolding_all rfl) (by with_unfolding_all rfl) (by with_unfolding_all rfl)
    (by with_unfolding_all rfl) (by with_unfolding_all rfl) (by with_unfolding_all rfl)
  have hb := (claim6_commit_atomicity (editAgeState "31") (.err "boom")).2.1
    "boom" rfl (by with_unfolding_all rfl)
  exact ⟨hm.1, hm.2.1, hm.2.2, hb.1, hb.2⟩

/-- Claim C7, counterexample: committing the `meta` cell with malformed
JSON text completes (the coercion failure is caught, the saving flag is
reset by `finally`), yet the edit session is NOT destroyed — `editingCell`
still marks the cell, so the controller is not back in the Idle state. -/
theorem claim7_counterexample :
    editMetaState.editingCell = some ⟨0, "meta"⟩
    ∧ (saveEdit editMetaState (.ok true)).state.editingCell = some ⟨0, "meta"⟩
    ∧ (saveEdit editMetaState (.ok true)).state.isSaving = false
    ∧ (saveEdit editMetaState (.ok true)).state.errorMessage
        = "Error updating field: SyntaxError: Unexpected token in JSON" := by
  refine ⟨?_, ?_, ?_, ?_⟩ <;> with_unfolding_all rfl

/-- Claim C7 as amended: the edit session is destroyed only when the commit
reaches the remote call and the call returns a boolean (success or
failure-as-false); when the coercion throws, or the remote call throws, the
`editingCell.value = null` line is skipped, so the session survives and
only the saving flag is reset. -/
theorem claim7_edit_session (s : GridState) (remote : RemoteOutcome) (cell : EditingCell)
    (doc : Record) (idf : List (String × JsValue)) (od : Record)
    (h1 : s.editingCell = some cell) (h2 : s.isSaving = false)
    (h3 : (paginatedDocuments s)[cell.rowIndex]? = some doc)
    (h4 : jsGet (.vObj doc) "_id" = .vObj idf)
    (h5 : s.documents.find? (fun d => jsStrictEq (docOid d) (jsGet (.vObj idf) "$oid")) = some od) :
    (∀ v b, coerceValue s.editValue (jsGet (.vObj od) cell.header) = .ok v →
        remote = .ok b →
        (saveEdit s remote).state.editingCell = none
        ∧ (saveEdit s remote).state.isSaving = false)
    ∧ (∀ e, coerceValue s.editValue (jsGet (.vObj od) cell.header) = .error e →
        (saveEdit s remote).state.editingCell = some cell
        ∧ (saveEdit s remote).state.isSaving = false)
    ∧ (∀ v m, coerceValue s.editValue (jsGet (.vObj od) cell.header) = .ok v →
        remote = .err m →
        (saveEdit s remote).state.editingCell = some cell
        ∧ (saveEdit s remote).state.isSaving = false) := by
  have hred : saveEdit s remote = saveEditLookup { s with isSaving := true } cell (.vObj idf) remote := by
    rw [saveEdit_reduce s remote cell doc h1 h2 h3, saveEditWithDoc_obj _ cell doc remote idf h4]
  refine ⟨?_, ?_, ?_⟩
  · rintro v b hc rfl
    rw [hred, saveEditLookup_hit { s with isSaving := true } cell (.vObj idf) _ od h5,
      saveEditResolve_remoteOk { s with isSaving := true } cell od _ b v hc]
    exact ⟨rfl, rfl⟩
  · intro e hc
    rw [hred, saveEditLookup_hit { s with isSaving := true } cell (.vObj idf) _ od h5,
      saveEditResolve_coerceErr { s with isSaving := true } cell od _ remote e hc]
    exact ⟨h1, rfl⟩
  · rintro v m hc rfl
    rw [hred, saveEditLookup_hit { s with isSaving := true } cell (.vObj idf) _ od h5,
      saveEditResolve_remoteErr { s with isSaving := true } cell od _ m v hc]
    exact ⟨h1, rfl⟩

/-- Witness for `claim7_edit_session`: the successful numeric commit closes
the session; a remote error on the same commit leaves the session open. -/
theorem claim7_edit_session_witness :
    (saveEdit (editAgeState "31") (.ok true)).state.editingCell = none
    ∧ (saveEdit (editAgeState "31") (.err "boom")).state.editingCell = some ⟨0, "age"⟩ := by
  have hok := claim7_edit_session (editAgeState "31") (.ok true)
    ⟨0, "age"⟩ docBob [("$oid", .vStr "a1")] docBob
    (by with_unfolding_all rfl) (by with_unfolding_all rfl) (by with_unfolding_all rfl)
    (by with_unfolding_all rfl) (by with_unfolding_all rfl)
  have herr := claim7_edit_session (editAgeState "31") (.err "boom")
    ⟨0, "age"⟩ docBob [("$oid", .vStr "a1")] docBob
    (by with_unfolding_all rfl) (by with_unfolding_all rfl) (by with_unfolding_all rfl)
    (by with_unfolding_all rfl) (by with_unfolding_all rfl)
  exact ⟨(hok.1 (.vNum (some 31)) true (by with_unfolding_all rfl) rfl).1,
    (herr.2.2 (.vNum (some 31)) "boom" (by with_unfolding_all rfl) rfl).1⟩

/-- Claim C8, counterexample: a confirmed delete whose remote call reports
`success = false` shows no message at all (the error text stays empty, and
nothing else in the state changes), rather than the distinct-not-deleted
message the claim requires; no local row is removed and no refetch is
triggered. -/
theorem claim8_counterexample :
    (deleteDocument singleDocState true (.ok false)).state = singleDocState
    ∧ (deleteDocument singleDocState true (.ok false)).state.errorMessage = ""
    ∧ (deleteDocument singleDocState true (.ok false)).state.documents = [docBob]
    ∧ (deleteDocument singleDocState true (.ok false)).refetch = false := by
  refine ⟨?_, ?_, ?_, ?_⟩ <;> with_unfolding_all rfl

/-- Claim C8 as amended: when the remote delete reports `success = false`
the grid shows NO message (not a distinct not-deleted one) and changes
nothing — no local row is removed and no refetch happens; by contrast a
thrown remote error sets the display error, and `success = true` triggers
the refetch. -/
theorem claim8_delete_not_found (s : GridState) :
    deleteDocument s true (.ok false) = ⟨s, false⟩
    ∧ (∀ msg, deleteDocument s true (.err msg)
        = ⟨{ s with errorMessage := "Error deleting document: " ++ msg }, false⟩)
    ∧ deleteDocument s true (.ok true) = ⟨s, true⟩ := by
  refine ⟨by with_unfolding_all rfl, fun msg => by with_unfolding_all rfl, by with_unfolding_all rfl⟩

/-- Claim C9, counterexample: activating a cell holding `null` seeds the
edit text with the string `"null"` (because `typeof null` is `"object"`
and the seeding uses its own `JSON.stringify(value, null, 2)` expression,
not the Value Formatter), while the Value Formatter renders `null` as
empty text — so the session text differs from the formatter output. -/
theorem claim9_counterexample :
    (handleCellClick baseState 0 "age" .vNull).editValue = "null"
    ∧ formatValue .vNull = ""
    ∧ (handleCellClick baseState 0 "age" .vNull).editValue ≠ formatValue .vNull := by
  refine ⟨by with_unfolding_all rfl, by with_unfolding_all rfl, by decide⟩

/-- Claim C9 as amended: activating a non-identifier cell opens the session
on that cell and seeds its text by the inline rule
`typeof value === "object" ? JSON.stringify(value, null, 2) : String(value)`:
this coincides with the Value Formatter for non-null, non-undefined
scalars, but `null` seeds `"null"` (not empty), an absent value seeds
`"undefined"` (not empty), and composites seed the 2-space-indented JSON
form rather than the compact form of the formatter. -/
theorem claim9_seed_text (s : GridState) (row : ℕ) (header : String) (v : JsValue)
    (hheader : header ≠ "_id") :
    (handleCellClick s row header v).editingCell = some ⟨row, header⟩
    ∧ (typeofJs v ≠ "object" → v ≠ .vUndefined →
        (handleCellClick s row header v).editValue = formatValue v)
    ∧ (typeofJs v = "object" →
        (handleCellClick s row header v).editValue = jsonStringifyPretty v)
    ∧ (v = .vNull → (handleCellClick s row header v).editValue = "null")
    ∧ (v = .vUndefined → (handleCellClick s row header v).editValue = "undefined") := by
  unfold handleCellClick
  rw [if_neg hheader]
  refine ⟨rfl, ?_, ?_, ?_, ?_⟩
  · intro ht hu
    dsimp only
    rw [if_neg ht]
    cases v with
    | vNull => exact absurd rfl ht
    | vUndefined => exact absurd rfl hu
    | vObj fs => exact absurd rfl ht
    | vArr xs => exact absurd rfl ht
    | vBool b => simp [formatValue, typeofJs]
    | vNum n => simp [formatValue, typeofJs]
    | vStr t => simp [formatValue, typeofJs]
  · intro ht
    dsimp only
    rw [if_pos ht]
  · rintro rfl
    with_unfolding_all rfl
  · rintro rfl
    with_unfolding_all rfl

/-- Witness for `claim9_seed_text` on the string-valued `name` cell, where
the seed text does coincide with the Value Formatter. -/
theorem claim9_seed_text_witness :
    (handleCellClick baseState 0 "name" (.vStr "Bob")).editingCell = some ⟨0, "name"⟩
    ∧ (handleCellClick baseState 0 "name" (.vStr "Bob")).editValue = formatValue (.vStr "Bob") := by
  have h := claim9_seed_text baseState 0 "name" (.vStr "Bob") (by decide)
  exact ⟨h.1, h.2.1 (by simp [typeofJs]) (by simp)⟩

/-- Claim C10: when the authoritative-record lookup by `_id.$oid` misses
(no token of a loaded record strictly equals the token of the edited row — which
the `NaN` token makes reachable), the commit returns early: no remote
update is sent, no exception escapes, and the record collection, the
Column Set and the pagination state are all left unchanged. -/
theorem claim10_lookup_miss (s : GridState) (remote : RemoteOutcome) (cell : EditingCell)
    (doc : Record) (idf : List (String × JsValue))
    (h1 : s.editingCell = some cell) (h2 : s.isSaving = false)
    (h3 : (paginatedDocuments s)[cell.rowIndex]? = some doc)
    (h4 : jsGet (.vObj doc) "_id" = .vObj idf)
    (h5 : s.documents.find? (fun d => jsStrictEq (docOid d) (jsGet (.vObj idf) "$oid")) = none) :
    (saveEdit s remote).sentUpdate = none
    ∧ (saveEdit s remote).state.documents = s.documents
    ∧ tableHeaders (saveEdit s remote).state.documents = tableHeaders s.documents
    ∧ (saveEdit s remote).state.currentPage = s.currentPage
    ∧ (saveEdit s remote).state.pageSize = s.pageSize
    ∧ paginatedDocuments (saveEdit s remote).state = paginatedDocuments s
    ∧ (saveEdit s remote).crashed = false := by
  rw [saveEdit_reduce s remote cell doc h1 h2 h3,
    saveEditWithDoc_obj _ cell doc remote idf h4,
    saveEditLookup_miss { s with isSaving := true } cell (.vObj idf) remote h5]
  exact ⟨rfl, rfl, rfl, rfl, rfl, rfl, rfl⟩

/-- Witness for `claim10_lookup_miss` at the `NaN`-identifier fixture:
strict equality never matches `NaN`, the lookup misses, and nothing is
sent or changed. -/
theorem claim10_lookup_miss_witness :
    (saveEdit nanIdState (.ok true)).sentUpdate = none
    ∧ (saveEdit nanIdState (.ok true)).state.documents = nanIdState.documents
    ∧ tableHeaders (saveEdit nanIdState (.ok true)).state.documents = tableHeaders nanIdState.documents
    ∧ (saveEdit nanIdState (.ok true)).crashed = false := by
  have h := claim10_lookup_miss nanIdState (.ok true) ⟨0, "name"⟩ docNanId [("$oid", .vNum none)]
    (by with_unfolding_all rfl) (by with_unfolding_all rfl) (by with_unfolding_all rfl)
    (by with_unfolding_all rfl) (by with_unfolding_all rfl)
  exact ⟨h.1, h.2.1, h.2.2.1, h.2.2.2.2.2.2⟩

end MongoGrid
